import Mathlib

/-!
Shallow embedding of the hmacproxy configuration validator (`options.go`)
and handler dispatcher (`handlers.go`).

External collaborators (the Go standard library's `net/url.Parse` and
`os.Stat`, and the `github.com/18F/hmacauth` package's
`DigestNameToCryptoHash` and `ValidateRequest`) are not part of this
repository; they are modelled as an explicit environment (`Env`) or as
abstract function parameters, so that every theorem quantifies over their
behaviour or pins it by hypothesis.

Go mutation of `*HmacProxyOpts` fields (`Mode`, `Digest.ID`,
`Upstream.URL`) is modelled by returning the updated record.  A Go panic
(nil-pointer dereference, `log.Fatalf`, `panic(...)`) is modelled by an
`Option` result being `none`.
-/

/-- Model of the parsed `net/url.URL` value, restricted to the fields the
repository reads: `Scheme`, `Host`, and the result of the `RequestURI()`
method (stored here as the field `RequestURI`). -/
structure URL where
  Scheme : String
  Host : String
  RequestURI : String
  deriving Repr, DecidableEq

/-- Result of `os.Stat` as observed through the predicates the code uses:
`os.IsNotExist`, `os.IsPermission`, and on success the `IsDir` /
`Mode().IsRegular()` attributes of the returned `FileInfo`.  `otherError`
stands for a stat error that is neither not-exist nor permission: the Go
code would then dereference a nil `FileInfo`. -/
inductive StatResult where
  | notExist
  | permissionDenied
  | ok (isDir : Bool) (isRegular : Bool)
  | otherError
  deriving Repr, DecidableEq

/-- The external world the validator consults: the hmacauth digest-name
table, the Go URL parser (on error Go returns a nil `*url.URL`, modelled
by `Except.error`), and the filesystem. -/
structure Env where
  digestNameToCryptoHash : String → Except String Nat
  urlParse : String → Except String URL
  stat : String → StatResult

/-- `HmacProxyURL` from `options.go`: the raw command-line string and the
parsed representation filled in during validation (`none` before
`validateUpstream` runs, as for Go's nil pointer). -/
structure HmacProxyURL where
  Raw : String
  URL : Option URL := none
  deriving Repr, DecidableEq

/-- `HmacProxyDigest` from `options.go`: user-facing digest name and the
`crypto.Hash` identifier filled in during validation. -/
structure HmacProxyDigest where
  Name : String
  ID : Nat := 0
  deriving Repr, DecidableEq

/-- `HmacProxyOpts` from `options.go`.  `Mode` is the Go `HmacProxyMode`
int, written by `validateMode`. -/
structure HmacProxyOpts where
  Port : Int
  Auth : Bool
  Digest : HmacProxyDigest
  Secret : String
  SignHeader : String
  Headers : List String
  Upstream : HmacProxyURL
  FileRoot : String
  SslCert : String
  SslKey : String
  Mode : Nat := 0
  deriving Repr, DecidableEq

/-- `HandlerSignAndProxy`: first value of the Go `iota` enumeration. -/
def HandlerSignAndProxy : Nat := 0

/-- `HandlerAuthAndProxy`. -/
def HandlerAuthAndProxy : Nat := 1

/-- `HandlerAuthForFiles`. -/
def HandlerAuthForFiles : Nat := 2

/-- `HandlerAuthOnly`. -/
def HandlerAuthOnly : Nat := 3

/-- The defaults that `RegisterCommandLineOptions` installs into a fresh
`HmacProxyOpts` (flag default values; `Mode`, `Digest.ID` and
`Upstream.URL` keep Go zero values). -/
def RegisterCommandLineOptionsDefaults : HmacProxyOpts :=
  { Port := 0
    Auth := false
    Digest := { Name := "sha1" }
    Secret := ""
    SignHeader := ""
    Headers := []
    Upstream := { Raw := "" }
    FileRoot := ""
    SslCert := ""
    SslKey := "" }

/-- `validateMode` from `options.go`: appends consistency messages and
writes `opts.Mode`.  Returns the updated opts together with the message
list (Go mutates `opts` in place). -/
def validateMode (opts : HmacProxyOpts) (msgs : List String) :
    HmacProxyOpts × List String :=
  let upstreamDefined := opts.Upstream.Raw ≠ ""
  let fileRootDefined := opts.FileRoot ≠ ""
  let msgs :=
    if ¬(upstreamDefined ∨ fileRootDefined ∨ opts.Auth) then
      msgs ++ ["neither -upstream, -file-root, nor -auth specified"]
    else if upstreamDefined ∧ fileRootDefined then
      msgs ++ ["both -upstream and -file-root specified"]
    else msgs
  let msgs :=
    if fileRootDefined ∧ ¬opts.Auth then
      msgs ++ ["-auth must be specified with -file-root"]
    else msgs
  let mode :=
    if ¬opts.Auth then HandlerSignAndProxy
    else if upstreamDefined then HandlerAuthAndProxy
    else if fileRootDefined then HandlerAuthForFiles
    else HandlerAuthOnly
  ({ opts with Mode := mode }, msgs)

/-- `validatePort` from `options.go`. -/
def validatePort (opts : HmacProxyOpts) (msgs : List String) : List String :=
  if opts.Port ≤ 0 then
    msgs ++ ["port must be specified and greater than zero"]
  else msgs

/-- `validateAuthParams` from `options.go`: resolves the digest name via
hmacauth (writing `Digest.ID`; on error hmacauth returns the zero
`crypto.Hash`) and checks secret and signature header. -/
def validateAuthParams (env : Env) (opts : HmacProxyOpts)
    (msgs : List String) : HmacProxyOpts × List String :=
  let resolved := env.digestNameToCryptoHash opts.Digest.Name
  let opts :=
    { opts with
      Digest :=
        { opts.Digest with
          ID := match resolved with | .ok h => h | .error _ => 0 } }
  let msgs :=
    match resolved with
    | .error _ => msgs ++ ["unsupported digest: " ++ opts.Digest.Name]
    | .ok _ => msgs
  let msgs := if opts.Secret = "" then msgs ++ ["no secret specified"] else msgs
  let msgs :=
    if opts.SignHeader = "" then
      msgs ++ ["no signature header specified"]
    else msgs
  (opts, msgs)

/-- `validateUpstream` from `options.go`.  When `url.Parse` fails Go
stores the nil `*url.URL` it returned, appends the parse message, and then
dereferences `opts.Upstream.URL` (`.Scheme`, `.Host`, `.RequestURI()`):
a nil-pointer panic, modelled as `none`. -/
def validateUpstream (env : Env) (opts : HmacProxyOpts)
    (msgs : List String) : Option (HmacProxyOpts × List String) :=
  if opts.Upstream.Raw = "" then some (opts, msgs)
  else
    match env.urlParse opts.Upstream.Raw with
    | .error _ => none
    | .ok u =>
      let opts := { opts with Upstream := { opts.Upstream with URL := some u } }
      let msgs :=
        if u.Scheme = "" then msgs ++ ["upstream scheme not specified"]
        else if ¬(u.Scheme = "http" ∨ u.Scheme = "https") then
          msgs ++ ["invalid upstream scheme: " ++ u.Scheme]
        else msgs
      let msgs :=
        if u.Host = "" then msgs ++ ["upstream host not specified"] else msgs
      let msgs :=
        if u.RequestURI ≠ "/" then
          msgs ++ ["upstream path must be \x22/\x22, not " ++ u.RequestURI]
        else msgs
      some (opts, msgs)

/-- `checkExistenceAndPermission` from `options.go`.  The Go function
panics on an invalid `dirOrFile` parameter, and would nil-dereference
`info` on a stat error that is neither not-exist nor permission; both are
modelled as `none`. -/
def checkExistenceAndPermission (env : Env)
    (path optionName dirOrFile : String) (msgs : List String) :
    Option (List String) :=
  if dirOrFile ≠ "dir" ∧ dirOrFile ≠ "file" then none
  else
    match env.stat path with
    | .notExist => some (msgs ++ [optionName ++ " does not exist: " ++ path])
    | .permissionDenied =>
      some (msgs ++ [optionName ++ " permission is denied: " ++ path])
    | .ok isDir isRegular =>
      if dirOrFile = "dir" ∧ isDir = false then
        some (msgs ++ [optionName ++ " is not a directory: " ++ path])
      else if dirOrFile = "file" ∧ isRegular = false then
        some (msgs ++ [optionName ++ " is not a regular file: " ++ path])
      else some msgs
    | .otherError => none

/-- `validateFileRoot` from `options.go`. -/
def validateFileRoot (env : Env) (opts : HmacProxyOpts)
    (msgs : List String) : Option (List String) :=
  if opts.FileRoot = "" then some msgs
  else checkExistenceAndPermission env opts.FileRoot "file-root" "dir" msgs

/-- `validateSsl` from `options.go`. -/
def validateSsl (env : Env) (opts : HmacProxyOpts) (msgs : List String) :
    Option (List String) :=
  let certSpecified := opts.SslCert ≠ ""
  let keySpecified := opts.SslKey ≠ ""
  if ¬(certSpecified ∨ keySpecified) then some msgs
  else
    let msgs :=
      if ¬(certSpecified ∧ keySpecified) then
        msgs ++ ["ssl-cert and ssl-key must both be specified, " ++
          "or neither must be"]
      else msgs
    match
      (if certSpecified then
        checkExistenceAndPermission env opts.SslCert "ssl-cert" "file" msgs
      else some msgs) with
    | none => none
    | some msgs =>
      if keySpecified then
        checkExistenceAndPermission env opts.SslKey "ssl-key" "file" msgs
      else some msgs

/-- `(*HmacProxyOpts).Validate` from `options.go`: runs all six checks in
order on an initially empty message list, returning the updated opts and
the collected messages (`none` models a Go panic inside one of the
checks). -/
def Validate (env : Env) (opts : HmacProxyOpts) :
    Option (HmacProxyOpts × List String) :=
  let r1 := validateMode opts []
  let msgs := validatePort r1.1 r1.2
  let r2 := validateAuthParams env r1.1 msgs
  match validateUpstream env r2.1 r2.2 with
  | none => none
  | some (opts, msgs) =>
    match validateFileRoot env opts msgs with
    | none => none
    | some msgs =>
      match validateSsl env opts msgs with
      | none => none
      | some msgs => some (opts, msgs)

/-- The error value `Validate` returns: `none` (Go `nil`) when the message
list is empty, otherwise the joined multi-line report. -/
def ValidateError (msgs : List String) : Option String :=
  if msgs.length ≠ 0 then
    some ("Invalid options:\n  " ++ String.intercalate "\n  " msgs)
  else none

/-!
Handler dispatcher, from `handlers.go`.
-/

/-- The handler value built by `NewHTTPProxyHandler`, as a closed tagged
union recording which wrapper the code constructs and the target or root
each delegate is built from (`signingHandler{auth, reverse proxy}`,
`authHandler{auth, reverse proxy}`, `authHandler{auth, file server}`,
`authOnlyHandler{auth}`). -/
inductive HandlerSpec where
  | signing (upstream : HmacProxyURL)
  | authProxy (upstream : HmacProxyURL)
  | authFiles (fileRoot : String)
  | authOnly
  deriving Repr, DecidableEq

/-- `signAndProxyHandler` from `handlers.go`: handler plus description. -/
def signAndProxyHandler (upstream : HmacProxyURL) : HandlerSpec × String :=
  (.signing upstream, "proxying signed requests to: " ++ upstream.Raw)

/-- `authAndProxyHandler` from `handlers.go`. -/
def authAndProxyHandler (upstream : HmacProxyURL) : HandlerSpec × String :=
  (.authProxy upstream, "proxying authenticated requests to: " ++ upstream.Raw)

/-- `authForFilesHandler` from `handlers.go`. -/
def authForFilesHandler (fileRoot : String) : HandlerSpec × String :=
  (.authFiles fileRoot,
    "serving files from " ++ fileRoot ++ " for authenticated requests")

/-- `authenticationOnlyHandler` from `handlers.go`. -/
def authenticationOnlyHandler : HandlerSpec × String :=
  (.authOnly, "responding Accepted/Unauthorized for auth queries")

/-- `NewHTTPProxyHandler` from `handlers.go`: the Go `switch` on
`opts.Mode` (an int), with the `log.Fatalf("unknown mode: ...")` fallthrough
modelled as `none`. -/
def NewHTTPProxyHandler (opts : HmacProxyOpts) : Option (HandlerSpec × String) :=
  if opts.Mode = HandlerSignAndProxy then some (signAndProxyHandler opts.Upstream)
  else if opts.Mode = HandlerAuthAndProxy then
    some (authAndProxyHandler opts.Upstream)
  else if opts.Mode = HandlerAuthForFiles then
    some (authForFilesHandler opts.FileRoot)
  else if opts.Mode = HandlerAuthOnly then some authenticationOnlyHandler
  else none

/-- The `hmacauth.AuthenticationResult` values returned by
`ValidateRequest` (external hmacauth package); the repository compares the
result only against `ResultMatch`. -/
inductive ValidationResult where
  | ResultNoSignature
  | ResultInvalidFormat
  | ResultUnsupportedAlgorithm
  | ResultMatch
  | ResultMismatch
  deriving Repr, DecidableEq

/-- An HTTP response as the handlers in `handlers.go` produce it: the
status code written and the accumulated body bytes. -/
structure Response where
  status : Nat
  body : String
  deriving Repr, DecidableEq

/-- Model of the Go standard library's `http.Error(w, msg, code)`: writes
the status code and the message with `fmt.Fprintln`, so the body carries a
trailing newline. -/
def httpError (msg : String) (code : Nat) : Response :=
  { status := code, body := msg ++ "\n" }

/-- `authHandler.ServeHTTP` from `handlers.go`, over an abstract request
type: `h.auth.ValidateRequest` is the abstract `validate`, and
`h.handler.ServeHTTP` (the reverse proxy or the file server) is the
abstract `delegate`. -/
def authHandlerServeHTTP {Req : Type} (validate : Req → ValidationResult)
    (delegate : Req → Response) (r : Req) : Response :=
  if validate r ≠ ValidationResult.ResultMatch then
    httpError "unauthorized request" 401
  else delegate r

/-- `authOnlyHandler.ServeHTTP` from `handlers.go`: on a match it writes
`http.StatusAccepted` (202) and nothing else, so the body is empty; it
holds no delegate, performing no forwarding and no file I/O. -/
def authOnlyHandlerServeHTTP {Req : Type}
    (validate : Req → ValidationResult) (r : Req) : Response :=
  if validate r ≠ ValidationResult.ResultMatch then
    httpError "unauthorized request" 401
  else { status := 202, body := "" }


/-!
Helper lemmas: every check only appends messages, so membership in the
incoming message list is preserved by each check and by `Validate`.
-/

theorem mem_validateMode {x : String} (opts : HmacProxyOpts)
    (msgs : List String) (hx : x ∈ msgs) : x ∈ (validateMode opts msgs).2 := by
  simp only [validateMode]
  repeat' split
  all_goals simp_all

theorem mem_validatePort {x : String} (opts : HmacProxyOpts)
    (msgs : List String) (hx : x ∈ msgs) : x ∈ validatePort opts msgs := by
  unfold validatePort
  split <;> simp_all

theorem mem_validateAuthParams {x : String} (env : Env)
    (opts : HmacProxyOpts) (msgs : List String) (hx : x ∈ msgs) :
    x ∈ (validateAuthParams env opts msgs).2 := by
  simp only [validateAuthParams]
  repeat' split
  all_goals simp_all

theorem mem_validateUpstream {x : String} {env : Env}
    {opts o : HmacProxyOpts} {msgs m : List String}
    (h : validateUpstream env opts msgs = some (o, m)) (hx : x ∈ msgs) :
    x ∈ m := by
  unfold validateUpstream at h
  split at h
  · simp_all
  · rcases hp : env.urlParse opts.Upstream.Raw with e | u <;> rw [hp] at h
    · exact absurd h (by simp)
    · simp only [Option.some.injEq, Prod.mk.injEq] at h
      rcases h with ⟨-, h⟩
      subst h
      repeat' split
      all_goals simp_all

theorem mem_checkExistenceAndPermission {x : String} {env : Env}
    {path optionName dirOrFile : String} {msgs m : List String}
    (h : checkExistenceAndPermission env path optionName dirOrFile msgs =
      some m) (hx : x ∈ msgs) : x ∈ m := by
  unfold checkExistenceAndPermission at h
  repeat' split at h
  all_goals (try simp only [Option.some.injEq] at h)
  all_goals (first | exact absurd h (by simp) | (subst h; simp_all))

theorem mem_validateFileRoot {x : String} {env : Env}
    {opts : HmacProxyOpts} {msgs m : List String}
    (h : validateFileRoot env opts msgs = some m) (hx : x ∈ msgs) : x ∈ m := by
  unfold validateFileRoot at h
  split at h
  · simp_all
  · exact mem_checkExistenceAndPermission h hx

theorem mem_validateSsl {x : String} {env : Env} {opts : HmacProxyOpts}
    {msgs m : List String} (h : validateSsl env opts msgs = some m)
    (hx : x ∈ msgs) : x ∈ m := by
  by_cases hc : opts.SslCert = "" <;> by_cases hk : opts.SslKey = "" <;>
      simp [validateSsl, hc, hk] at h
  · simp_all
  · exact mem_checkExistenceAndPermission h (by simp [hx])
  · rcases h1 : checkExistenceAndPermission env opts.SslCert "ssl-cert" "file"
        (msgs ++
          ["ssl-cert and ssl-key must both be specified, or neither must be"])
      with - | m1 <;> rw [h1] at h
    · exact absurd h (by simp)
    · simp only [Option.some.injEq] at h
      subst h
      exact mem_checkExistenceAndPermission h1 (by simp [hx])
  · rcases h1 : checkExistenceAndPermission env opts.SslCert "ssl-cert" "file"
        msgs with - | m1 <;> rw [h1] at h
    · exact absurd h (by simp)
    · exact mem_checkExistenceAndPermission h
        (mem_checkExistenceAndPermission h1 hx)

theorem mem_Validate_of_mem_auth {x : String} {env : Env}
    {opts o : HmacProxyOpts} {m : List String}
    (h : Validate env opts = some (o, m))
    (hx : x ∈ (validateAuthParams env (validateMode opts []).1
      (validatePort (validateMode opts []).1 (validateMode opts []).2)).2) :
    x ∈ m := by
  simp only [Validate] at h
  rcases hu : validateUpstream env ((validateAuthParams env
      (validateMode opts []).1
      (validatePort (validateMode opts []).1 (validateMode opts []).2)).1)
      ((validateAuthParams env (validateMode opts []).1
      (validatePort (validateMode opts []).1 (validateMode opts []).2)).2)
    with - | ⟨o1, m1⟩ <;> simp only [hu] at h
  · exact absurd h (by simp)
  · have hx1 : x ∈ m1 := mem_validateUpstream hu hx
    rcases hf : validateFileRoot env o1 m1 with - | m2 <;> simp only [hf] at h
    · exact absurd h (by simp)
    · have hx2 : x ∈ m2 := mem_validateFileRoot hf hx1
      rcases hs : validateSsl env o1 m2 with - | m3 <;> simp only [hs] at h
      · exact absurd h (by simp)
      · have hx3 : x ∈ m3 := mem_validateSsl hs hx2
        simp only [Option.some.injEq, Prod.mk.injEq] at h
        rcases h with ⟨-, h⟩
        exact h ▸ hx3

theorem mem_Validate {x : String} {env : Env} {opts o : HmacProxyOpts}
    {m : List String} (h : Validate env opts = some (o, m))
    (hx : x ∈ (validateMode opts []).2) : x ∈ m :=
  mem_Validate_of_mem_auth h
    (mem_validateAuthParams _ _ _ (mem_validatePort _ _ hx))

/-!
Concrete fixtures used by witnesses and counterexamples.
-/

/-- A concrete environment: the digest table knows only "sha1", the URL
parser recognises the URLs the fixtures use (everything else fails to
parse, as Go does on, e.g., an invalid percent escape), and every path
stats as an ordinary readable directory-and-file. -/
def envTest : Env :=
  { digestNameToCryptoHash := fun n =>
      if n = "sha1" then .ok 3 else .error ("unsupported digest: " ++ n)
    urlParse := fun s =>
      if s = "http://foo.com/" then .ok ⟨"http", "foo.com", "/"⟩
      else if s = "gopher://foo.com/bar/" then .ok ⟨"gopher", "foo.com", "/bar/"⟩
      else if s = "//foo.com/" then .ok ⟨"", "foo.com", "/"⟩
      else .error "parse error"
    stat := fun _ => .ok true true }

/-- A valid authenticate-and-forward configuration. -/
def optsA : HmacProxyOpts :=
  { RegisterCommandLineOptionsDefaults with
    Port := 8080, Auth := true, Secret := "s", SignHeader := "X-Signature"
    Upstream := { Raw := "http://foo.com/" } }

/-- As `optsA` with every Mode-irrelevant field changed. -/
def optsB : HmacProxyOpts :=
  { Port := -7, Auth := true
    Digest := { Name := "md5" }
    Secret := "other", SignHeader := "Other-Header"
    Headers := ["Content-Type"]
    Upstream := { Raw := "gopher://foo.com/bar/" }
    FileRoot := "", SslCert := "/c.pem", SslKey := "/k.pem" }

/-- A file-root configuration without `-auth`. -/
def optsC : HmacProxyOpts :=
  { RegisterCommandLineOptionsDefaults with
    Port := 8080, Secret := "s", SignHeader := "X-Signature"
    FileRoot := "/srv/files" }

/-!
Claim theorems.
-/

/-- `validateAuthParams` writes only `Digest.ID`: the Mode field passes
through unchanged. -/
theorem Mode_validateAuthParams (env : Env) (opts : HmacProxyOpts)
    (msgs : List String) :
    ((validateAuthParams env opts msgs).1).Mode = opts.Mode := rfl

/-- `validateUpstream` writes only `Upstream.URL`: the Mode field passes
through unchanged. -/
theorem Mode_validateUpstream {env : Env} {opts o : HmacProxyOpts}
    {msgs m : List String}
    (h : validateUpstream env opts msgs = some (o, m)) : o.Mode = opts.Mode := by
  unfold validateUpstream at h
  split at h
  · simp only [Option.some.injEq, Prod.mk.injEq] at h
    obtain ⟨h1, -⟩ := h
    subst h1
    rfl
  · rcases hp : env.urlParse opts.Upstream.Raw with e | u <;>
      simp only [hp] at h
    · exact absurd h (by simp)
    · simp only [Option.some.injEq, Prod.mk.injEq] at h
      obtain ⟨h1, -⟩ := h
      subst h1
      rfl

/-- C1: the Mode written by validation is a pure function of exactly
(`Auth`, whether `Upstream.Raw` is non-empty, whether `FileRoot` is
non-empty), following the four-row table; it does not depend on any other
field or on the incoming message list, and it is assigned unconditionally,
with `Validate` carrying exactly that Mode in its result. -/
theorem validateMode_mode_pure :
    (∀ (opts : HmacProxyOpts) (msgs : List String),
      ((validateMode opts msgs).1).Mode =
        (if ¬opts.Auth then HandlerSignAndProxy
         else if opts.Upstream.Raw ≠ "" then HandlerAuthAndProxy
         else if opts.FileRoot ≠ "" then HandlerAuthForFiles
         else HandlerAuthOnly)) ∧
    (∀ (opts₁ opts₂ : HmacProxyOpts) (msgs₁ msgs₂ : List String),
      opts₁.Auth = opts₂.Auth →
      (opts₁.Upstream.Raw = "" ↔ opts₂.Upstream.Raw = "") →
      (opts₁.FileRoot = "" ↔ opts₂.FileRoot = "") →
      ((validateMode opts₁ msgs₁).1).Mode =
        ((validateMode opts₂ msgs₂).1).Mode) ∧
    (∀ (env : Env) (opts o : HmacProxyOpts) (m : List String),
      Validate env opts = some (o, m) →
      o.Mode = ((validateMode opts []).1).Mode) := by
  refine ⟨fun opts msgs => rfl, ?_, ?_⟩
  · intro o₁ o₂ m₁ m₂ hA hU hF
    by_cases ha : o₁.Auth <;> by_cases hu : o₁.Upstream.Raw = "" <;>
      by_cases hf : o₁.FileRoot = "" <;>
      simp_all [validateMode]
  · intro env opts o m h
    simp only [Validate] at h
    rcases hu : validateUpstream env ((validateAuthParams env
        (validateMode opts []).1
        (validatePort (validateMode opts []).1 (validateMode opts []).2)).1)
        ((validateAuthParams env (validateMode opts []).1
        (validatePort (validateMode opts []).1 (validateMode opts []).2)).2)
      with - | ⟨o₁, m₁⟩ <;> simp only [hu] at h
    · exact absurd h (by simp)
    · rcases hf : validateFileRoot env o₁ m₁ with - | m₂ <;>
        simp only [hf] at h
      · exact absurd h (by simp)
      · rcases hs : validateSsl env o₁ m₂ with - | m₃ <;> simp only [hs] at h
        · exact absurd h (by simp)
        · simp only [Option.some.injEq, Prod.mk.injEq] at h
          obtain ⟨h1, -⟩ := h
          subst h1
          have h2 := Mode_validateUpstream hu
          rw [Mode_validateAuthParams] at h2
          exact h2

/-- Witness for C1: concrete configurations exercising the table row for
auth-with-upstream, the irrelevance of the other fields (`optsA` and
`optsB` differ in port, digest, secret, sign header, covered headers, raw
upstream string and TLS paths), and the Mode carried by a full `Validate`
run. -/
theorem validateMode_mode_pure_witness :
    ((validateMode optsA []).1).Mode = HandlerAuthAndProxy ∧
    ((validateMode optsA []).1).Mode = ((validateMode optsB ["x"]).1).Mode ∧
    ∃ o m, Validate envTest optsA = some (o, m) ∧
      o.Mode = ((validateMode optsA []).1).Mode := by
  refine ⟨?_, ?_, ?_⟩
  · rw [validateMode_mode_pure.1 optsA []]
    decide
  · exact validateMode_mode_pure.2.1 optsA optsB [] ["x"] (by decide)
      (by decide) (by decide)
  · exact ⟨_, _, rfl, validateMode_mode_pure.2.2 envTest optsA _ _ rfl⟩

/-- C9: for every configuration, the Mode that `validateMode` writes is
one the dispatch switch in `NewHTTPProxyHandler` handles, so the fatal
"unknown mode" fallthrough (`none`) is unreachable for any configuration
that went through validation. -/
theorem NewHTTPProxyHandler_covers_validateMode :
    ∀ (opts : HmacProxyOpts) (msgs : List String),
      ∃ hd, NewHTTPProxyHandler ((validateMode opts msgs).1) = some hd := by
  intro opts msgs
  by_cases ha : opts.Auth <;> by_cases hu : opts.Upstream.Raw = "" <;>
    by_cases hf : opts.FileRoot = "" <;>
    simp [validateMode, NewHTTPProxyHandler, HandlerSignAndProxy,
      HandlerAuthAndProxy, HandlerAuthForFiles, HandlerAuthOnly, ha, hu, hf]

/-- C10: a configuration with a file root but without `-auth` draws the
message "-auth must be specified with -file-root" (from `validateMode` and
hence from any successful `Validate` run), even though the Mode computed
for it is `HandlerSignAndProxy`. -/
theorem validateMode_fileRoot_requires_auth :
    ∀ (opts : HmacProxyOpts) (msgs : List String),
      opts.FileRoot ≠ "" → opts.Auth = false →
      "-auth must be specified with -file-root" ∈ (validateMode opts msgs).2 ∧
      ((validateMode opts msgs).1).Mode = HandlerSignAndProxy ∧
      ∀ (env : Env) (o : HmacProxyOpts) (m : List String),
        Validate env opts = some (o, m) →
        "-auth must be specified with -file-root" ∈ m := by
  intro opts msgs hf ha
  refine ⟨?_, ?_, ?_⟩
  · simp [validateMode, hf, ha]
  · simp [validateMode, ha, HandlerSignAndProxy]
  · intro env o m h
    exact mem_Validate h (by simp [validateMode, hf, ha])

/-- Witness for C10: the concrete file-root-without-auth configuration
`optsC`. -/
theorem validateMode_fileRoot_requires_auth_witness :
    "-auth must be specified with -file-root" ∈ (validateMode optsC []).2 ∧
    ((validateMode optsC []).1).Mode = HandlerSignAndProxy := by
  have h := validateMode_fileRoot_requires_auth optsC [] (by decide) rfl
  exact ⟨h.1, h.2.1⟩

/-- C2: a configuration with an empty secret, an empty signature header, a
non-positive port, and a digest name the hmacauth table rejects draws all
four corresponding messages in one `Validate` pass, and the single
returned error is present (non-nil). -/
theorem Validate_reports_all_four :
    ∀ (env : Env) (opts : HmacProxyOpts),
      opts.Secret = "" → opts.SignHeader = "" → opts.Port ≤ 0 →
      (∃ e, env.digestNameToCryptoHash opts.Digest.Name = Except.error e) →
      ∀ (o : HmacProxyOpts) (m : List String),
        Validate env opts = some (o, m) →
        "port must be specified and greater than zero" ∈ m ∧
        ("unsupported digest: " ++ opts.Digest.Name) ∈ m ∧
        "no secret specified" ∈ m ∧
        "no signature header specified" ∈ m ∧
        (ValidateError m).isSome := by
  intro env opts hs hh hp hd o m h
  obtain ⟨e, he⟩ := hd
  have key :
      "port must be specified and greater than zero" ∈
        (validateAuthParams env (validateMode opts []).1
          (validatePort (validateMode opts []).1 (validateMode opts []).2)).2 ∧
      ("unsupported digest: " ++ opts.Digest.Name) ∈
        (validateAuthParams env (validateMode opts []).1
          (validatePort (validateMode opts []).1 (validateMode opts []).2)).2 ∧
      "no secret specified" ∈
        (validateAuthParams env (validateMode opts []).1
          (validatePort (validateMode opts []).1 (validateMode opts []).2)).2 ∧
      "no signature header specified" ∈
        (validateAuthParams env (validateMode opts []).1
          (validatePort (validateMode opts []).1 (validateMode opts []).2)).2 := by
    simp [validateAuthParams, validatePort, validateMode, hp, hs, hh, he]
  have h1 := mem_Validate_of_mem_auth h key.1
  have h2 := mem_Validate_of_mem_auth h key.2.1
  have h3 := mem_Validate_of_mem_auth h key.2.2.1
  have h4 := mem_Validate_of_mem_auth h key.2.2.2
  refine ⟨h1, h2, h3, h4, ?_⟩
  have hne : m ≠ [] := List.ne_nil_of_mem h1
  simp [ValidateError, hne]

/-- A configuration carrying all four faults of C2 at once. -/
def optsBad : HmacProxyOpts :=
  { RegisterCommandLineOptionsDefaults with
    Port := -1, Digest := { Name := "bogus" } }

/-- Witness for C2: `optsBad` under `envTest` (whose digest table rejects
"bogus") yields all four messages in one pass. -/
theorem Validate_reports_all_four_witness :
    ∃ o m, Validate envTest optsBad = some (o, m) ∧
      "port must be specified and greater than zero" ∈ m ∧
      ("unsupported digest: " ++ optsBad.Digest.Name) ∈ m ∧
      "no secret specified" ∈ m ∧
      "no signature header specified" ∈ m ∧
      (ValidateError m).isSome := by
  refine ⟨_, _, rfl, ?_⟩
  exact Validate_reports_all_four envTest optsBad rfl rfl (by decide)
    ⟨"unsupported digest: bogus", rfl⟩ _ _ rfl

/-- C4: on the upstream string "gopher://foo.com/bar/" (whose Go parse
yields scheme "gopher", host "foo.com", request URI "/bar/"),
`validateUpstream` appends exactly the invalid-scheme and invalid-path
messages — no parse-failure message and no host message. -/
theorem validateUpstream_gopher_two_messages :
    ∀ (env : Env) (opts : HmacProxyOpts) (msgs : List String),
      opts.Upstream.Raw = "gopher://foo.com/bar/" →
      env.urlParse "gopher://foo.com/bar/" =
        Except.ok ⟨"gopher", "foo.com", "/bar/"⟩ →
      (validateUpstream env opts msgs).map Prod.snd =
        some (msgs ++ ["invalid upstream scheme: gopher",
          "upstream path must be \x22/\x22, not /bar/"]) := by
  intro env opts msgs hraw hp
  simp [validateUpstream, hraw, hp]

/-- The upstream fixture for C4. -/
def optsGopher : HmacProxyOpts :=
  { RegisterCommandLineOptionsDefaults with
    Upstream := { Raw := "gopher://foo.com/bar/" } }

/-- Witness for C4: the gopher URL under `envTest`. -/
theorem validateUpstream_gopher_two_messages_witness :
    (validateUpstream envTest optsGopher []).map Prod.snd =
      some (["invalid upstream scheme: gopher",
        "upstream path must be \x22/\x22, not /bar/"]) :=
  validateUpstream_gopher_two_messages envTest optsGopher [] rfl rfl

/-- C5: when `url.Parse` fails, Go's `validateUpstream` stores the nil
`*url.URL` that `url.Parse` returned and then reads `.Scheme` from it, so
the pass panics (modelled `none`) instead of recording the parse failure
and carrying on with the scheme, host and path checks. -/
theorem validateUpstream_parse_failure_panics :
    ∀ (env : Env) (opts : HmacProxyOpts) (msgs : List String) (e : String),
      opts.Upstream.Raw ≠ "" →
      env.urlParse opts.Upstream.Raw = Except.error e →
      validateUpstream env opts msgs = none := by
  intro env opts msgs e hne hp
  simp [validateUpstream, hne, hp]

/-- An upstream string Go's `url.Parse` rejects (trailing invalid percent
escape); `envTest.urlParse` rejects it too. -/
def optsParseFail : HmacProxyOpts :=
  { RegisterCommandLineOptionsDefaults with
    Upstream := { Raw := "http://foo.com/%" } }

/-- Witness for C5: the concrete unparsable upstream string panics the
pass, producing no message list at all. -/
theorem validateUpstream_parse_failure_panics_witness :
    validateUpstream envTest optsParseFail [] = none :=
  validateUpstream_parse_failure_panics envTest optsParseFail []
    "parse error" (by decide) rfl

/-- C7 counterexample: the upstream "//foo.com/" parses with an empty
scheme (host "foo.com", request URI "/"), and validation reports
"upstream scheme not specified" — not the claimed
"invalid upstream scheme: " form — so the claimed message shape does not
cover the empty scheme. -/
theorem validateUpstream_empty_scheme_counterexample :
    (validateUpstream envTest
        { RegisterCommandLineOptionsDefaults with
          Upstream := { Raw := "//foo.com/" } } []).map Prod.snd =
      some ["upstream scheme not specified"] ∧
    "invalid upstream scheme: " ∉ ["upstream scheme not specified"] := by
  constructor
  · rfl
  · decide

/-- C7 as amended: for a supplied upstream whose parsed scheme is
non-empty and neither "http" nor "https", validation appends
"invalid upstream scheme: <scheme>" with the offending scheme echoed; a
parsed empty scheme instead draws "upstream scheme not specified". -/
theorem validateUpstream_invalid_scheme :
    ∀ (env : Env) (opts : HmacProxyOpts) (msgs : List String) (u : URL),
      opts.Upstream.Raw ≠ "" →
      env.urlParse opts.Upstream.Raw = Except.ok u →
      (u.Scheme ≠ "" → u.Scheme ≠ "http" → u.Scheme ≠ "https" →
        ∀ (o : HmacProxyOpts) (m : List String),
          validateUpstream env opts msgs = some (o, m) →
          ("invalid upstream scheme: " ++ u.Scheme) ∈ m) ∧
      (u.Scheme = "" →
        ∀ (o : HmacProxyOpts) (m : List String),
          validateUpstream env opts msgs = some (o, m) →
          "upstream scheme not specified" ∈ m) := by
  intro env opts msgs u hne hp
  constructor
  · intro h1 h2 h3 o m h
    simp [validateUpstream, hne, hp, h1, h2, h3] at h
    rcases h with ⟨-, h⟩
    subst h
    split <;> split <;> simp_all
  · intro h1 o m h
    simp [validateUpstream, hne, hp, h1] at h
    rcases h with ⟨-, h⟩
    subst h
    split <;> split <;> simp_all

/-- Witness for the amended C7: the gopher URL draws the echoed-scheme
message, and the schemeless URL draws the not-specified message. -/
theorem validateUpstream_invalid_scheme_witness :
    "invalid upstream scheme: gopher" ∈
      ["invalid upstream scheme: gopher",
        "upstream path must be \x22/\x22, not /bar/"] ∧
    "upstream scheme not specified" ∈ ["upstream scheme not specified"] := by
  constructor
  · exact (validateUpstream_invalid_scheme envTest optsGopher []
      ⟨"gopher", "foo.com", "/bar/"⟩ (by decide) rfl).1 (by decide) (by decide)
      (by decide) _ _ rfl
  · exact (validateUpstream_invalid_scheme envTest
      { RegisterCommandLineOptionsDefaults with
        Upstream := { Raw := "//foo.com/" } } []
      ⟨"", "foo.com", "/"⟩ (by decide) rfl).2 rfl _ _ rfl

/-- C8: supplying only one of ssl-cert/ssl-key draws the pairing message,
and when the one supplied path does not exist the does-not-exist message
follows it in the same report (pairing first); with only one supplied the
pairing message is always in any returned report; and when both are
supplied there is no pairing message and each path is independently run
through the existence/permission/regular-file check. -/
theorem validateSsl_pairing :
    ∀ (env : Env) (opts : HmacProxyOpts) (msgs : List String),
      (opts.SslCert ≠ "" → opts.SslKey = "" →
        env.stat opts.SslCert = StatResult.notExist →
        validateSsl env opts msgs = some (msgs ++
          ["ssl-cert and ssl-key must both be specified, or neither must be",
            "ssl-cert does not exist: " ++ opts.SslCert])) ∧
      (opts.SslCert = "" → opts.SslKey ≠ "" →
        env.stat opts.SslKey = StatResult.notExist →
        validateSsl env opts msgs = some (msgs ++
          ["ssl-cert and ssl-key must both be specified, or neither must be",
            "ssl-key does not exist: " ++ opts.SslKey])) ∧
      ((opts.SslCert = "") ≠ (opts.SslKey = "") →
        ∀ m : List String, validateSsl env opts msgs = some m →
          ("ssl-cert and ssl-key must both be specified, " ++
            "or neither must be") ∈ m) ∧
      (opts.SslCert ≠ "" → opts.SslKey ≠ "" →
        validateSsl env opts msgs =
          (checkExistenceAndPermission env opts.SslCert "ssl-cert" "file"
            msgs).bind
            (checkExistenceAndPermission env opts.SslKey "ssl-key" "file")) := by
  intro env opts msgs
  refine ⟨?_, ?_, ?_, ?_⟩
  · intro hc hk hstat
    simp [validateSsl, checkExistenceAndPermission, hc, hk, hstat]
  · intro hc hk hstat
    simp [validateSsl, checkExistenceAndPermission, hc, hk, hstat]
  · intro hne m h
    by_cases hc : opts.SslCert = "" <;> by_cases hk : opts.SslKey = "" <;>
        simp [hc, hk] at hne <;> simp [validateSsl, hc, hk] at h
    · exact mem_checkExistenceAndPermission h (by simp)
    · rcases h1 : checkExistenceAndPermission env opts.SslCert "ssl-cert"
          "file" (msgs ++
            ["ssl-cert and ssl-key must both be specified, or neither must be"])
        with - | m₁ <;> rw [h1] at h
      · exact absurd h (by simp)
      · simp only [Option.some.injEq] at h
        subst h
        exact mem_checkExistenceAndPermission h1 (by simp)
  · intro hc hk
    simp only [validateSsl, hc, hk]
    rcases h1 : checkExistenceAndPermission env opts.SslCert "ssl-cert"
        "file" msgs with - | m₁ <;> simp [hc, hk, h1]

/-- An environment in which every path is missing. -/
def envMissing : Env :=
  { digestNameToCryptoHash := fun n =>
      if n = "sha1" then .ok 3 else .error ("unsupported digest: " ++ n)
    urlParse := fun _ => .error "parse error"
    stat := fun _ => .notExist }

/-- A configuration supplying ssl-cert without ssl-key. -/
def optsCertOnly : HmacProxyOpts :=
  { RegisterCommandLineOptionsDefaults with SslCert := "/c.pem" }

/-- Witness for C8: ssl-cert "/c.pem" without ssl-key, with the path
missing, yields the pairing message followed by the does-not-exist
message. -/
theorem validateSsl_pairing_witness :
    validateSsl envMissing optsCertOnly [] = some
      ["ssl-cert and ssl-key must both be specified, or neither must be",
        "ssl-cert does not exist: /c.pem"] :=
  (validateSsl_pairing envMissing optsCertOnly []).1 (by decide) rfl rfl

/-- C3 counterexample: with a validation result other than a match (here
`ResultNoSignature`), the handler answers 401, but the body is
"unauthorized request" followed by a newline (Go's `http.Error` writes the
message with `Fprintln`, as the repository's own tests assert), so the
body is not exactly "unauthorized request". -/
theorem authHandler_401_body_counterexample :
    (authHandlerServeHTTP (fun _ : Unit => ValidationResult.ResultNoSignature)
        (fun _ => { status := 200, body := "ok" }) ()).status = 401 ∧
    (authHandlerServeHTTP (fun _ : Unit => ValidationResult.ResultNoSignature)
        (fun _ => { status := 200, body := "ok" }) ()).body ≠
      "unauthorized request" ∧
    (authHandlerServeHTTP (fun _ : Unit => ValidationResult.ResultNoSignature)
        (fun _ => { status := 200, body := "ok" }) ()).body =
      "unauthorized request\n" := by
  refine ⟨rfl, ?_, rfl⟩
  decide

/-- C3 as amended: on anything other than a positive match — whatever the
failure cause — the authenticating handlers answer HTTP 401 with body
"unauthorized request" plus the newline `http.Error` appends, one fixed
response that does not distinguish among the causes; on a match the
wrapping handler proceeds to its delegate (reverse proxy or file
server). -/
theorem authHandlers_uniform_401 :
    ∀ (Req : Type) (validate : Req → ValidationResult)
      (delegate : Req → Response) (r : Req),
      (validate r ≠ ValidationResult.ResultMatch →
        authHandlerServeHTTP validate delegate r =
          { status := 401, body := "unauthorized request\n" } ∧
        authOnlyHandlerServeHTTP validate r =
          { status := 401, body := "unauthorized request\n" }) ∧
      (validate r = ValidationResult.ResultMatch →
        authHandlerServeHTTP validate delegate r = delegate r) := by
  intro Req validate delegate r
  constructor
  · intro h
    constructor <;>
      simp [authHandlerServeHTTP, authOnlyHandlerServeHTTP, httpError, h]
  · intro h
    simp [authHandlerServeHTTP, h]

/-- Witness for the amended C3: a concrete no-signature request gets the
fixed 401 response and a concrete matching request reaches the
delegate. -/
theorem authHandlers_uniform_401_witness :
    authHandlerServeHTTP (fun _ : Unit => ValidationResult.ResultNoSignature)
      (fun _ => { status := 200, body := "ok" }) () =
      { status := 401, body := "unauthorized request\n" } ∧
    authHandlerServeHTTP (fun _ : Unit => ValidationResult.ResultMatch)
      (fun _ => { status := 200, body := "ok" }) () =
      { status := 200, body := "ok" } := by
  constructor
  · exact ((authHandlers_uniform_401 Unit _ _ ()).1 (by decide)).1
  · exact (authHandlers_uniform_401 Unit _ _ ()).2 rfl

/-- C6: in authenticate-only mode a matching request gets HTTP 202 with an
empty body; `authOnlyHandler` holds no delegate, so no forwarding and no
file I/O can occur. -/
theorem authOnlyHandler_match_202 :
    ∀ (Req : Type) (validate : Req → ValidationResult) (r : Req),
      validate r = ValidationResult.ResultMatch →
      authOnlyHandlerServeHTTP validate r = { status := 202, body := "" } := by
  intro Req validate r h
  simp [authOnlyHandlerServeHTTP, h]

/-- Witness for C6: a concrete matching request. -/
theorem authOnlyHandler_match_202_witness :
    authOnlyHandlerServeHTTP (fun _ : Unit => ValidationResult.ResultMatch) () =
      { status := 202, body := "" } :=
  authOnlyHandler_match_202 Unit _ () rfl
